import Mathlib

/-!
Verification development for `aws_status_slack.py`, a script that polls AWS
status RSS feeds and notifies a Slack channel when a feed publishes a new
entry.

The embedding is shallow. External effects are modelled as explicit inputs:
feed fetching is a function from feed name to a parsed snapshot (per cycle,
a sequence of such functions), the outcome of an HTTP POST to the webhook is
a `PostResult` value, and the process start time (`START_TIME` in the
source) is a parameter. Timestamps (`datetime` values in the source) are
modelled as `Nat`; only their ordering matters to the program. Exceptions
that the source would raise (IndexError in `last_pub_date`, KeyError on the
`last_saved_dates` dictionary, a requests exception propagating out of
`send_to_slack`) are modelled with `Option`: `none` means the exception
escapes the modelled code. Observable behaviour of one pass of the check
loop (fetches, notifications, sleeps) is recorded as a trace of events.
-/

namespace AwsStatusSlack

/-- One parsed feed item: title, link, summary and the publication time
(`published_parsed`, truncated to a datetime in the source). -/
structure Entry where
  title : String
  link : String
  summary : String
  publishedAt : Nat
deriving DecidableEq, Repr

/-- Result of `feedparser.parse`: the HTTP status and the entry list,
newest first. -/
structure Snapshot where
  status : Nat
  entries : List Entry
deriving DecidableEq, Repr

/-- Time in seconds between feed requests (source line 22). -/
def REQUESTS_INTERVAL : Nat := 2

/-- Time in seconds between whole-set checks (source line 23). -/
def CHECKS_INTERVAL : Nat := 60

/-- URL template instantiation, `AWS_RSS_URL % feed` in the source. -/
def AWS_RSS_URL (feed : String) : String :=
  "http://status.aws.amazon.com/rss/" ++ feed ++ ".rss"

/-- Boolean test that `pat` is a leading segment of `s`, on character
lists. -/
def listStartsWith : List Char → List Char → Bool
  | [], _ => true
  | _ :: _, [] => false
  | p :: ps, c :: cs => p == c && listStartsWith ps cs

/-- Boolean substring containment on character lists: `pat` occurs
contiguously somewhere in `s`. -/
def containsSub (pat : List Char) : List Char → Bool
  | [] => listStartsWith pat []
  | c :: cs => listStartsWith pat (c :: cs) || containsSub pat cs

/-- Python's `pat in s` on strings: substring containment. -/
def strContains (s pat : String) : Bool :=
  containsSub pat.toList s.toList

/-- Pattern of a resolution notice (source line 48). -/
def NORMAL_PAT : String := "Service is operating normally:"

/-- Pattern of an informational notice (source line 50). -/
def INFO_PAT : String := "Informational message:"

/-- Message color cascade of `send_to_slack` (source lines 47-53). -/
def color (title : String) : String :=
  if strContains title NORMAL_PAT then "good"
  else if strContains title INFO_PAT then "warning"
  else "danger"

/-- Severity labels the specification assigns to the three color branches. -/
inductive Severity
  | InformationalResolved
  | Informational
  | Alert
deriving DecidableEq, Repr

/-- Severity classification: the same cascade as `color`, named by the
specification's severity labels. -/
def classify (title : String) : Severity :=
  if strContains title NORMAL_PAT then Severity.InformationalResolved
  else if strContains title INFO_PAT then Severity.Informational
  else Severity.Alert

/-- Color string attached to each severity. -/
def severityColor : Severity → String
  | Severity.InformationalResolved => "good"
  | Severity.Informational => "warning"
  | Severity.Alert => "danger"

/-- The JSON payload `send_to_slack` posts (source lines 55-67). -/
structure Payload where
  username : String
  icon_url : String
  channel : String
  color : String
  title : String
  title_link : String
  text : String
deriving DecidableEq, Repr

/-- Payload construction from an entry and the destination channel
(source lines 55-67). -/
def mk_payload (item : Entry) (ch : String) : Payload :=
  { username := "aws"
    icon_url := "https://dl.dropboxusercontent.com/u/62469907/aws-icon.png"
    channel := ch
    color := color item.title
    title := item.title
    title_link := item.link
    text := item.summary }

/-- Outcome of the `requests.post` call to the webhook: either the call
raises (endpoint unreachable) or it returns a response with some HTTP
status code. -/
inductive PostResult
  | raised
  | status (code : Nat)
deriving DecidableEq, Repr

/-- Model of `send_to_slack` (source lines 46-71). The function builds the
payload and posts it once. The source wraps the post in no try/except and
never inspects the response status: if the post raises, the exception
propagates (`none`); otherwise, whatever the status code, the function logs
the info-level line and returns. The returned pair is the payload posted
and the log line emitted. -/
def send_to_slack (item : Entry) (ch : String) (post : PostResult) :
    Option (Payload × String) :=
  match post with
  | PostResult.raised => none
  | PostResult.status _ => some (mk_payload item ch, "Notification sent to Slack!")

/-- Model of `last_pub_date` (source lines 34-44): publication time of
`data.entries[0]`. The source indexes unconditionally, so on an empty entry
list it raises IndexError; here that is `none`. -/
def last_pub_date (data : Snapshot) : Option Nat :=
  match data.entries with
  | [] => none
  | e :: _ => some e.publishedAt

/-- The per-feed watch state: feed name to last saved publication date
(the `last_saved_dates` dictionary; `none` means the key is absent). -/
def WatchMap : Type := String → Option Nat

/-- Dictionary assignment `m[k] = v`. -/
def updateMap (m : WatchMap) (k : String) (v : Nat) : WatchMap :=
  fun x => if x = k then some v else m x

/-- The change detection inlined at source lines 114-130: on an empty entry
list do nothing; otherwise compare the newest entry's publication date with
the saved date using strict greater-than, and on success report the newest
entry and the new saved date. -/
def detect (data : Snapshot) (lastSeen : Nat) : Option Entry × Nat :=
  match data.entries with
  | [] => (none, lastSeen)
  | e :: _ =>
    if lastSeen < e.publishedAt then (some e, e.publishedAt) else (none, lastSeen)

/-- Observable events of the check loop: a feed fetch, a notification
dispatch and a sleep of a given number of seconds. -/
inductive Ev
  | fetchEv (feed : String)
  | notifyEv (p : Payload)
  | sleepEv (n : Nat)
deriving DecidableEq, Repr

/-- Result of the seeding pass (source lines 74-95): the surviving feed
list, the seeded dictionary and the event trace. -/
structure SeedResult where
  feeds : List String
  dates : WatchMap
  events : List Ev

/-- Seeding pass of `check_loop` (source lines 74-95): each candidate feed
is fetched once, in input order; a feed whose fetch status is not 200 is
removed and skipped (the `continue` also skips the sleep); a surviving feed
gets its newest entry's publication date, or `startTime` (`START_TIME`)
when the snapshot has no entries, and is followed by a
`REQUESTS_INTERVAL` sleep. -/
def seed (fetch1 : String → Snapshot) (startTime : Nat) :
    List String → SeedResult
  | [] => ⟨[], fun _ => none, []⟩
  | f :: rest =>
    let data := fetch1 f
    if data.status ≠ 200 then
      let r := seed fetch1 startTime rest
      ⟨r.feeds, r.dates, Ev.fetchEv f :: r.events⟩
    else
      let d := if data.entries.isEmpty then startTime
               else (last_pub_date data).getD startTime
      let r := seed fetch1 startTime rest
      ⟨f :: r.feeds, updateMap r.dates f d,
        Ev.fetchEv f :: Ev.sleepEv REQUESTS_INTERVAL :: r.events⟩

/-- Diagnostic logged when no feed survives seeding (source lines 99-100). -/
def noFeedsDiag : String :=
  "No valid feeds left. TIP: Do not specify feeds to watch " ++
    AWS_RSS_URL "all" ++ "."

/-- Startup phase of `check_loop` (source lines 74-101): seed, then abort
with exit code 1 and the diagnostic if no feed is left, else hand the
surviving feeds and dictionary to the steady-state loop. -/
def check_loop_startup (fetch1 : String → Snapshot) (startTime : Nat)
    (feeds : List String) : Except (Nat × String) (List String × WatchMap) :=
  let r := seed fetch1 startTime feeds
  if r.feeds.isEmpty then Except.error (1, noFeedsDiag)
  else Except.ok (r.feeds, r.dates)

/-- One pass of the steady-state loop over the feed list (source lines
108-136), producing the updated dictionary and the event trace. A feed
whose snapshot has no entries is skipped by `continue`, which also skips
the `REQUESTS_INTERVAL` sleep. For a feed with entries the dictionary is
read (`none` models the KeyError escaping), the detection of lines 119-130
runs, a strictly newer entry is posted to Slack and saved, and the
`REQUESTS_INTERVAL` sleep runs. After the whole pass the loop sleeps
`CHECKS_INTERVAL`. Posts are modelled as returning (see `send_to_slack`
for the raising case). -/
def runCycle (fetch1 : String → Snapshot) (ch : String) :
    List String → WatchMap → Option (WatchMap × List Ev)
  | [], m => some (m, [Ev.sleepEv CHECKS_INTERVAL])
  | f :: rest, m =>
    let data := fetch1 f
    if data.entries.isEmpty then
      (runCycle fetch1 ch rest m).map fun p => (p.1, Ev.fetchEv f :: p.2)
    else
      match m f with
      | none => none
      | some ls =>
        match detect data ls with
        | (none, _) =>
          (runCycle fetch1 ch rest m).map fun p =>
            (p.1, Ev.fetchEv f :: Ev.sleepEv REQUESTS_INTERVAL :: p.2)
        | (some e, lp) =>
          (runCycle fetch1 ch rest (updateMap m f lp)).map fun p =>
            (p.1, Ev.fetchEv f :: Ev.notifyEv (mk_payload e ch) ::
              Ev.sleepEv REQUESTS_INTERVAL :: p.2)

/-- Finitely many passes of the infinite `while True` loop, numbered from
`i`; the fetch environment may differ from pass to pass (`fetchSeq`). -/
def runLoop (fetchSeq : Nat → String → Snapshot) (ch : String)
    (feeds : List String) : Nat → Nat → WatchMap → Option WatchMap
  | _, 0, m => some m
  | i, n + 1, m =>
    match runCycle (fetchSeq i) ch feeds m with
    | none => none
    | some p => runLoop fetchSeq ch feeds (i + 1) n p.1

/-- The whole of `check_loop` observed for `n` steady-state passes:
startup, then `n` passes of the loop over the surviving feeds. -/
def check_loop_model (fetch0 : String → Snapshot)
    (fetchSeq : Nat → String → Snapshot) (ch : String) (startTime : Nat)
    (feeds : List String) (n : Nat) : Except (Nat × String) (Option WatchMap) :=
  match check_loop_startup fetch0 startTime feeds with
  | Except.error e => Except.error e
  | Except.ok p => Except.ok (runLoop fetchSeq ch p.1 0 n p.2)

/-- Recognizer of fetch events. -/
def isFetchEv : Ev → Bool
  | Ev.fetchEv _ => true
  | _ => false

/-- Total seconds slept in a trace. -/
def sumSleeps : List Ev → Nat
  | [] => 0
  | Ev.sleepEv n :: tr => n + sumSleeps tr
  | _ :: tr => sumSleeps tr

/-- Seconds slept between consecutive fetch events of a trace: `acc` is the
sleep accumulated since the last fetch, `seenFetch` whether a fetch has
occurred yet. -/
def fetchGaps (acc : Nat) (seenFetch : Bool) : List Ev → List Nat
  | [] => []
  | Ev.fetchEv _ :: tr =>
    (if seenFetch then [acc] else []) ++ fetchGaps 0 true tr
  | Ev.sleepEv n :: tr => fetchGaps (acc + n) seenFetch tr
  | Ev.notifyEv _ :: tr => fetchGaps acc seenFetch tr

/-! Concrete inputs used by witnesses and counterexamples. -/

/-- A sample alert entry. -/
def entryA : Entry := ⟨"RDS connectivity issues", "http://l", "details", 5⟩

/-- A sample snapshot holding only `entryA`. -/
def snapA : Snapshot := ⟨200, [entryA]⟩

/-- A fetch environment where feed a comes back empty and feed b comes
back with one stale entry. -/
def cfetchAB : String → Snapshot :=
  fun f => if f = "a" then ⟨200, []⟩ else ⟨200, [⟨"t", "l", "s", 3⟩]⟩

/-- A watch map holding feeds a and b. -/
def mapAB : WatchMap :=
  fun f => if f = "a" then some 0 else if f = "b" then some 5 else none

/-- A fetch environment in which every feed is unreachable. -/
def cf404 : String → Snapshot := fun _ => ⟨404, []⟩

/-- A watch map holding feeds a and b with small saved dates, so that feed
b's entry of `cfetchAB` counts as new. -/
def mapAB1 : WatchMap :=
  fun f => if f = "a" then some 0 else if f = "b" then some 1 else none

/-! Helper lemmas, shared by several claim proofs. -/

/-- Value seeded for a reachable feed: newest entry's publication date, or
the start time on an empty snapshot. -/
theorem seed_init_val (data : Snapshot) (st : Nat) :
    (if data.entries.isEmpty then st else (last_pub_date data).getD st) =
      match data.entries with
      | [] => st
      | e :: _ => e.publishedAt := by
  cases h : data.entries <;> simp [last_pub_date, h]

/-- Membership in the seeded feed list: original membership and fetch
status 200. -/
theorem seed_feeds_mem (fetch1 : String → Snapshot) (st : Nat) :
    ∀ (fs : List String) (f : String),
      f ∈ (seed fetch1 st fs).feeds ↔ (f ∈ fs ∧ (fetch1 f).status = 200) := by
  intro fs
  induction fs with
  | nil => intro f; simp [seed]
  | cons g rest ih =>
    intro f
    by_cases hg : (fetch1 g).status = 200
    · by_cases hfg : f = g
      · subst hfg
        simp [seed, hg]
      · simp [seed, hg, hfg, ih f]
    · by_cases hfg : f = g
      · subst hfg
        simp [seed, hg, ih f]
      · simp [seed, hg, hfg, ih f]

/-- The seeded dictionary is `none` on every feed whose fetch status is
not 200. -/
theorem seed_dates_dropped (fetch1 : String → Snapshot) (st : Nat) :
    ∀ (fs : List String) (f : String), (fetch1 f).status ≠ 200 →
      (seed fetch1 st fs).dates f = none := by
  intro fs
  induction fs with
  | nil => intro f _; rfl
  | cons g rest ih =>
    intro f hf
    by_cases hg : (fetch1 g).status = 200
    · have hfg : f ≠ g := fun h => hf (h ▸ hg)
      simp [seed, hg, updateMap, hfg, ih f hf]
    · simp [seed, hg, ih f hf]

/-- The seeded dictionary is `none` on every name not among the
candidates. -/
theorem seed_dates_not_mem (fetch1 : String → Snapshot) (st : Nat) :
    ∀ (fs : List String) (f : String), f ∉ fs →
      (seed fetch1 st fs).dates f = none := by
  intro fs
  induction fs with
  | nil => intro f _; rfl
  | cons g rest ih =>
    intro f hf
    have hfg : f ≠ g := fun h => hf (h ▸ List.mem_cons_self g rest)
    have hfr : f ∉ rest := fun h => hf (List.mem_cons_of_mem g h)
    by_cases hg : (fetch1 g).status = 200
    · simp [seed, hg, updateMap, hfg, ih f hfr]
    · simp [seed, hg, ih f hfr]

/-- The seeded dictionary on a surviving candidate: newest entry's
publication date, or the start time when the snapshot is empty. -/
theorem seed_dates_kept (fetch1 : String → Snapshot) (st : Nat) :
    ∀ (fs : List String) (f : String), f ∈ fs → (fetch1 f).status = 200 →
      (seed fetch1 st fs).dates f =
        some (match (fetch1 f).entries with
              | [] => st
              | e :: _ => e.publishedAt) := by
  intro fs
  induction fs with
  | nil => intro f hf; exact absurd hf (List.not_mem_nil f)
  | cons g rest ih =>
    intro f hf hst
    by_cases hg : (fetch1 g).status = 200
    · by_cases hfg : f = g
      · subst hfg
        simp only [seed, hg, ne_eq, not_true_eq_false, if_false]
        simp only [updateMap, if_pos rfl]
        rw [seed_init_val]
        simp
      · have hfr : f ∈ rest := by
          rcases List.mem_cons.mp hf with h | h
          · exact absurd h hfg
          · exact h
        simp [seed, hg, updateMap, hfg, ih f hfr hst]
    · have hfg : f ≠ g := fun h => hg (h ▸ hst)
      have hfr : f ∈ rest := by
        rcases List.mem_cons.mp hf with h | h
        · exact absurd h hfg
        · exact h
      simp [seed, hg, ih f hfr hst]

/-- The fetch events of the seeding pass: each candidate fetched exactly
once, in input order. -/
theorem seed_events_fetches (fetch1 : String → Snapshot) (st : Nat) :
    ∀ fs : List String,
      (seed fetch1 st fs).events.filter isFetchEv = fs.map Ev.fetchEv := by
  intro fs
  induction fs with
  | nil => rfl
  | cons g rest ih =>
    by_cases hg : (fetch1 g).status = 200
    · simp [seed, hg, isFetchEv, REQUESTS_INTERVAL, ih]
    · simp [seed, hg, isFetchEv, ih]

/-- Detection reporting a new entry means the saved date was strictly
older and the new saved date is the newest entry's publication date. -/
theorem detect_some (data : Snapshot) (ls lp : Nat) (e : Entry)
    (h : detect data ls = (some e, lp)) : ls < lp ∧ lp = e.publishedAt := by
  unfold detect at h
  split at h
  · simp at h
  · split at h
    · rename_i e' tail hlt
      injection h with h3 h4
      injection h3 with h5
      subst h5
      exact ⟨h4 ▸ hlt, h4.symm⟩
    · simp at h

/-- One pass of the steady loop never deletes a key and never decreases a
saved date. -/
theorem runCycle_mono (fetch1 : String → Snapshot) (ch : String) :
    ∀ (feeds : List String) (m m2 : WatchMap) (tr : List Ev),
      runCycle fetch1 ch feeds m = some (m2, tr) →
      ∀ k, (m k = none → m2 k = none) ∧
        (∀ v, m k = some v → ∃ v2, m2 k = some v2 ∧ v ≤ v2) := by
  intro feeds
  induction feeds with
  | nil =>
    intro m m2 tr h k
    simp only [runCycle, Option.some.injEq, Prod.mk.injEq] at h
    obtain ⟨hm, _⟩ := h
    subst hm
    exact ⟨fun hn => hn, fun v hv => ⟨v, hv, Nat.le_refl v⟩⟩
  | cons f rest ih =>
    intro m m2 tr h k
    simp only [runCycle] at h
    split at h
    · rw [Option.map_eq_some'] at h
      obtain ⟨⟨m1, tr1⟩, hp, hpe⟩ := h
      injection hpe with h1 h2
      subst h1
      exact ih m m1 tr1 hp k
    · split at h
      · exact Option.noConfusion h
      · rename_i ls hmf
        split at h
        · rename_i snd hd
          rw [Option.map_eq_some'] at h
          obtain ⟨⟨m1, tr1⟩, hp, hpe⟩ := h
          injection hpe with h1 h2
          subst h1
          exact ih m m1 tr1 hp k
        · rename_i e lp hd
          rw [Option.map_eq_some'] at h
          obtain ⟨⟨m1, tr1⟩, hp, hpe⟩ := h
          injection hpe with h1 h2
          subst h1
          have hlt := (detect_some (fetch1 f) ls lp e hd).1
          have hrec := ih (updateMap m f lp) m1 tr1 hp
          constructor
          · intro hk
            have hkf : k ≠ f := by
              intro hkf
              rw [hkf, hmf] at hk
              cases hk
            exact (hrec k).1 (by simp [updateMap, hkf, hk])
          · intro v hv
            by_cases hkf : k = f
            · subst hkf
              have hvls : v = ls := by
                rw [hmf] at hv
                injection hv with h3
                exact h3.symm
              have h1 : updateMap m k lp k = some lp := by simp [updateMap]
              obtain ⟨v2, hv2, hle⟩ := (hrec k).2 lp h1
              exact ⟨v2, hv2, Nat.le_trans (hvls ▸ Nat.le_of_lt hlt) hle⟩
            · have h1 : updateMap m f lp k = some v := by
                simp [updateMap, hkf, hv]
              obtain ⟨v2, hv2, hle⟩ := (hrec k).2 v h1
              exact ⟨v2, hv2, hle⟩

/-- One pass of the steady loop preserves the key set of the dictionary. -/
theorem runCycle_domain (fetch1 : String → Snapshot) (ch : String)
    (feeds : List String) (m m2 : WatchMap) (tr : List Ev)
    (h : runCycle fetch1 ch feeds m = some (m2, tr)) (k : String) :
    (m2 k).isSome = (m k).isSome := by
  have hk := runCycle_mono fetch1 ch feeds m m2 tr h k
  rcases hmk : m k with _ | v
  · rw [hk.1 hmk]
  · obtain ⟨v2, hv2, _⟩ := hk.2 v hmk
    rw [hv2]
    rfl

/-- One pass of the steady loop raises no KeyError when every iterated
feed has a key in the dictionary. -/
theorem runCycle_isSome (fetch1 : String → Snapshot) (ch : String) :
    ∀ (feeds : List String) (m : WatchMap),
      (∀ f, f ∈ feeds → (m f).isSome) →
      (runCycle fetch1 ch feeds m).isSome := by
  intro feeds
  induction feeds with
  | nil => intro m _; simp [runCycle]
  | cons f rest ih =>
    intro m hm
    simp only [runCycle]
    by_cases hemp : (fetch1 f).entries.isEmpty
    · rw [if_pos hemp]
      have hr := ih m (fun g hg => hm g (List.mem_cons_of_mem f hg))
      obtain ⟨p, hp⟩ := Option.isSome_iff_exists.mp hr
      rw [hp]
      rfl
    · rw [if_neg hemp]
      rcases hmf : m f with _ | ls
      · have := hm f (List.mem_cons_self f rest)
        rw [hmf] at this
        cases this
      · simp only [hmf]
        rcases hd : detect (fetch1 f) ls with ⟨o, lp⟩
        cases o with
        | none =>
          have hr := ih m (fun g hg => hm g (List.mem_cons_of_mem f hg))
          obtain ⟨p, hp⟩ := Option.isSome_iff_exists.mp hr
          simp only [hd, hp]
          rfl
        | some e =>
          have hdom : ∀ g, g ∈ rest → ((updateMap m f lp) g).isSome := by
            intro g hg
            by_cases hgf : g = f
            · subst hgf
              simp [updateMap]
            · simp only [updateMap, if_neg hgf]
              exact hm g (List.mem_cons_of_mem f hg)
          have hr := ih (updateMap m f lp) hdom
          obtain ⟨p, hp⟩ := Option.isSome_iff_exists.mp hr
          simp only [hd, hp]
          rfl

/-- Finitely many passes of the steady loop raise no KeyError when every
iterated feed starts with a key in the dictionary. -/
theorem runLoop_isSome (fetchSeq : Nat → String → Snapshot) (ch : String)
    (feeds : List String) :
    ∀ (n i : Nat) (m : WatchMap),
      (∀ f, f ∈ feeds → (m f).isSome) →
      (runLoop fetchSeq ch feeds i n m).isSome := by
  intro n
  induction n with
  | zero => intro i m _; simp [runLoop]
  | succ n ih =>
    intro i m hm
    simp only [runLoop]
    have hc := runCycle_isSome (fetchSeq i) ch feeds m hm
    obtain ⟨⟨m1, tr1⟩, hp⟩ := Option.isSome_iff_exists.mp hc
    rw [hp]
    exact ih (i + 1) m1 (fun f hf => by
      rw [runCycle_domain (fetchSeq i) ch feeds m m1 tr1 hp f]
      exact hm f hf)

/-- Total sleep of one pass: `REQUESTS_INTERVAL` per feed whose snapshot
has entries, plus the trailing `CHECKS_INTERVAL`. -/
theorem runCycle_sleeps (fetch1 : String → Snapshot) (ch : String) :
    ∀ (feeds : List String) (m m2 : WatchMap) (tr : List Ev),
      runCycle fetch1 ch feeds m = some (m2, tr) →
      sumSleeps tr =
        (feeds.countP (fun f => !(fetch1 f).entries.isEmpty)) *
          REQUESTS_INTERVAL + CHECKS_INTERVAL := by
  intro feeds
  induction feeds with
  | nil =>
    intro m m2 tr h
    simp only [runCycle, Option.some.injEq, Prod.mk.injEq] at h
    obtain ⟨_, htr⟩ := h
    subst htr
    simp [sumSleeps, List.countP_nil]
  | cons f rest ih =>
    intro m m2 tr h
    simp only [runCycle] at h
    split at h
    · rename_i hemp
      rw [Option.map_eq_some'] at h
      obtain ⟨⟨m1, tr1⟩, hp, hpe⟩ := h
      injection hpe with h1 h2
      subst h2
      have hrec := ih m m1 tr1 hp
      simp [sumSleeps, List.countP_cons, hemp, hrec]
    · rename_i hemp
      split at h
      · exact Option.noConfusion h
      · rename_i ls hmf
        split at h
        · rename_i snd hd
          rw [Option.map_eq_some'] at h
          obtain ⟨⟨m1, tr1⟩, hp, hpe⟩ := h
          injection hpe with h1 h2
          subst h2
          have hrec := ih m m1 tr1 hp
          simp only [sumSleeps, hrec, List.countP_cons]
          simp [hemp, Nat.add_mul]
          omega
        · rename_i e lp hd
          rw [Option.map_eq_some'] at h
          obtain ⟨⟨m1, tr1⟩, hp, hpe⟩ := h
          injection hpe with h1 h2
          subst h2
          have hrec := ih (updateMap m f lp) m1 tr1 hp
          simp only [sumSleeps, hrec, List.countP_cons]
          simp [hemp, Nat.add_mul]
          omega

/-! Claim theorems. -/

/-- C2. Seeding processes each candidate in input order, fetching it
exactly once (the fetch-event trace is one fetch per candidate, in order);
a candidate whose fetch status is not 200 is excluded from the surviving
feed list and from the dictionary, never to be retried; a surviving
candidate's initial saved date is its newest entry's publication date, or
the process start time when the snapshot has no entries. -/
theorem seed_candidates (fetch1 : String → Snapshot) (st : Nat)
    (fs : List String) :
    ((seed fetch1 st fs).events.filter isFetchEv = fs.map Ev.fetchEv) ∧
    (∀ f, f ∈ (seed fetch1 st fs).feeds ↔ (f ∈ fs ∧ (fetch1 f).status = 200)) ∧
    (∀ f, (fetch1 f).status ≠ 200 → (seed fetch1 st fs).dates f = none) ∧
    (∀ f, f ∈ fs → (fetch1 f).status = 200 →
      (seed fetch1 st fs).dates f =
        some (match (fetch1 f).entries with
              | [] => st
              | e :: _ => e.publishedAt)) :=
  ⟨seed_events_fetches fetch1 st fs,
   fun f => seed_feeds_mem fetch1 st fs f,
   fun f hf => seed_dates_dropped fetch1 st fs f hf,
   fun f hf hst => seed_dates_kept fetch1 st fs f hf hst⟩

/-- Witness for C2: seeding feeds a and b under `cfetchAB` gives feed a,
whose snapshot is empty, the start time 7. -/
theorem seed_candidates_witness :
    (seed cfetchAB 7 ["a", "b"]).dates "a" =
      some (match (cfetchAB "a").entries with
            | [] => 7
            | e :: _ => e.publishedAt) :=
  (seed_candidates cfetchAB 7 ["a", "b"]).2.2.2 "a" (by decide) rfl

/-- C4. The modelled `check_loop` reports exit code 1 with the diagnostic
naming the default all feed exactly when seeding leaves no feed, whatever
number of steady-state passes is observed; every error it can report is
that one; and the diagnostic does contain the URL of the all feed. The
model's only exit point is the `sys.exit(1)` of source line 101, taken
before any steady-state pass. -/
theorem startup_empty_exit (fetch0 : String → Snapshot)
    (fetchSeq : Nat → String → Snapshot) (ch : String) (st : Nat)
    (fs : List String) (n : Nat) :
    (check_loop_model fetch0 fetchSeq ch st fs n =
        Except.error (1, noFeedsDiag) ↔ (seed fetch0 st fs).feeds = []) ∧
    (∀ e, check_loop_model fetch0 fetchSeq ch st fs n = Except.error e →
      e = (1, noFeedsDiag)) ∧
    strContains noFeedsDiag (AWS_RSS_URL "all") = true := by
  refine ⟨?_, ?_, by decide⟩ <;>
    · simp only [check_loop_model, check_loop_startup]
      rcases hfe : (seed fetch0 st fs).feeds with _ | ⟨g, gs⟩ <;> simp

/-- Witness for C4: under the all-unreachable environment `cf404` the model
exits with code 1 and the diagnostic. -/
theorem startup_empty_exit_witness :
    check_loop_model cf404 (fun _ => cf404) "#chan" 0 ["x"] 1 =
      Except.error (1, noFeedsDiag) :=
  (startup_empty_exit cf404 (fun _ => cf404) "#chan" 0 ["x"] 1).1.mpr (by decide)

/-- C3. Severity classification on the entry title is first-match-wins in
the source's cascade order: a title containing the operating-normally
pattern is Informational-Resolved (color good); otherwise one containing
the informational pattern is Informational (color warning); otherwise the
severity is Alert (color danger), the default catch-all. -/
theorem classify_first_match (title : String) :
    color title = severityColor (classify title) ∧
    (strContains title NORMAL_PAT = true →
      classify title = Severity.InformationalResolved) ∧
    (strContains title NORMAL_PAT = false → strContains title INFO_PAT = true →
      classify title = Severity.Informational) ∧
    (strContains title NORMAL_PAT = false → strContains title INFO_PAT = false →
      classify title = Severity.Alert) := by
  unfold color classify severityColor
  by_cases h1 : strContains title NORMAL_PAT
  · simp [h1]
  · by_cases h2 : strContains title INFO_PAT <;> simp [h1, h2]

/-- Witness for C3: a concrete informational title takes the middle branch. -/
theorem classify_first_match_witness :
    classify "Informational message: RDS issue" = Severity.Informational :=
  (classify_first_match "Informational message: RDS issue").2.2.1
    (by decide) (by decide)

/-- C10. `last_pub_date` is partial exactly on snapshots with an empty
entry list (the unconditional `entries[0]` raises there); under the
non-empty guard present at both call sites it succeeds and returns the
newest entry's publication date, which is precisely the value the guarded
detection code compares and stores. -/
theorem last_pub_date_guarded :
    (∀ s : Snapshot, last_pub_date s = none ↔ s.entries = []) ∧
    (∀ (s : Snapshot) (ls : Nat) (e : Entry) (r : List Entry),
      s.entries = e :: r →
      last_pub_date s = some e.publishedAt ∧
      detect s ls =
        if ls < e.publishedAt then (some e, e.publishedAt) else (none, ls)) := by
  constructor
  · intro s
    unfold last_pub_date
    cases s.entries <;> simp
  · intro s ls e r he
    unfold last_pub_date detect
    rw [he]
    exact ⟨rfl, rfl⟩

/-- Witness for C10: on the one-entry snapshot `snapA` the guarded call
succeeds with timestamp 5 and detection takes the strictly-newer branch. -/
theorem last_pub_date_guarded_witness :
    last_pub_date snapA = some 5 ∧
    detect snapA 3 =
      if 3 < 5 then (some entryA, 5) else ((none : Option Entry), 3) :=
  last_pub_date_guarded.2 snapA 3 entryA [] rfl

/-- C5 counterexample. The claim says a dispatch failure is reported as a
warning and does not stop the Watch Loop. In the source `requests.post` is
wrapped in no try/except and its status is never checked: when the post
raises, `send_to_slack` propagates the exception (modelled `none`, which
aborts the loop); when the post returns a non-success status the function
still logs the info line "Notification sent to Slack!" and no warning. -/
theorem send_to_slack_dispatch_cex :
    send_to_slack entryA "#chan" PostResult.raised = none ∧
    send_to_slack entryA "#chan" (PostResult.status 500) =
      some (mk_payload entryA "#chan", "Notification sent to Slack!") :=
  ⟨rfl, rfl⟩

/-- C5 amended. Dispatch is fire-and-forget with no retry and never touches
the watch state, but failures are not handled: if the post raises, the
exception propagates out of `send_to_slack` and terminates the loop; if the
post returns, whatever the status code, the function logs the info-level
success line and continues. -/
theorem send_to_slack_dispatch (item : Entry) (ch : String) (c : Nat) :
    send_to_slack item ch PostResult.raised = none ∧
    send_to_slack item ch (PostResult.status c) =
      some (mk_payload item ch, "Notification sent to Slack!") :=
  ⟨rfl, rfl⟩

/-- C6. In a steady-state pass, a feed whose snapshot has no entries is
skipped: the pass continues with the remaining feeds, the dictionary is
left untouched by that feed, no notification event is emitted for it and
the feed list itself is never modified; in particular a single such feed
leaves the whole map unchanged. -/
theorem empty_snapshot_skip (fetch1 : String → Snapshot) (ch f : String)
    (rest : List String) (m : WatchMap) (h : (fetch1 f).entries = []) :
    runCycle fetch1 ch (f :: rest) m =
      (runCycle fetch1 ch rest m).map (fun p => (p.1, Ev.fetchEv f :: p.2)) ∧
    runCycle fetch1 ch [f] m =
      some (m, [Ev.fetchEv f, Ev.sleepEv CHECKS_INTERVAL]) := by
  constructor
  · simp [runCycle, h]
  · simp [runCycle, h]

/-- Witness for C6: skipping the empty feed a leaves the map `mapAB`
unchanged. -/
theorem empty_snapshot_skip_witness :
    runCycle cfetchAB "#chan" ["a"] mapAB =
      some (mapAB, [Ev.fetchEv "a", Ev.sleepEv CHECKS_INTERVAL]) :=
  (empty_snapshot_skip cfetchAB "#chan" "a" [] mapAB rfl).2

/-- C1. For a watched feed whose fresh snapshot has entries, the detection
compares the newest entry's publication date to the saved date with strict
greater-than: when it is equal or older the pass moves on with the map
unchanged and no notification event; when it is strictly newer exactly one
notification event is emitted for that feed and the saved date becomes the
newest entry's publication date. -/
theorem detect_strict_greater (fetch1 : String → Snapshot) (ch f : String)
    (rest : List String) (m : WatchMap) (ls : Nat) (e : Entry) (r : List Entry)
    (hm : m f = some ls) (he : (fetch1 f).entries = e :: r) :
    (e.publishedAt ≤ ls →
      runCycle fetch1 ch (f :: rest) m =
        (runCycle fetch1 ch rest m).map
          (fun p => (p.1, Ev.fetchEv f :: Ev.sleepEv REQUESTS_INTERVAL :: p.2))) ∧
    (ls < e.publishedAt →
      runCycle fetch1 ch (f :: rest) m =
        (runCycle fetch1 ch rest (updateMap m f e.publishedAt)).map
          (fun p => (p.1, Ev.fetchEv f :: Ev.notifyEv (mk_payload e ch) ::
            Ev.sleepEv REQUESTS_INTERVAL :: p.2))) := by
  constructor
  · intro hle
    simp [runCycle, he, hm, detect, Nat.not_lt.mpr hle]
  · intro hlt
    simp [runCycle, he, hm, detect, hlt]

/-- Witness for C1: feed b of `cfetchAB` has newest timestamp 3, not newer
than the saved 5, so the pass over the single feed b keeps `mapAB` and
emits no notification. -/
theorem detect_strict_greater_witness :
    runCycle cfetchAB "#chan" ["b"] mapAB =
      (runCycle cfetchAB "#chan" [] mapAB).map
        (fun p => (p.1, Ev.fetchEv "b" :: Ev.sleepEv REQUESTS_INTERVAL :: p.2)) :=
  (detect_strict_greater cfetchAB "#chan" "b" [] mapAB 5 ⟨"t", "l", "s", 3⟩ []
    rfl rfl).1 (by decide)

/-- C7 counterexample. The claim says at least `REQUESTS_INTERVAL` elapses
between any two consecutive feed fetches of a steady-state pass. In the
source the `continue` taken for a feed with an empty snapshot (line 117)
skips the sleep at line 133, so the next feed is fetched immediately: in
the concrete pass below the gap between the fetches of feeds a and b is 0,
strictly less than `REQUESTS_INTERVAL`. -/
theorem cycle_pacing_cex :
    (runCycle cfetchAB "#chan" ["a", "b"] mapAB).map
      (fun p => fetchGaps 0 false p.2) = some [0] ∧
    0 < REQUESTS_INTERVAL :=
  ⟨rfl, by decide⟩

/-- C7 amended. The `REQUESTS_INTERVAL` sleep runs only after a feed whose
snapshot has entries; a feed with an empty snapshot is followed immediately
by the next fetch. Consequently one full pass sleeps exactly
k × `REQUESTS_INTERVAL` plus the trailing `CHECKS_INTERVAL`, where k is
the number of feeds in the pass whose snapshot has entries (so the claimed
N × `REQUESTS_INTERVAL` bound holds only when every snapshot has entries);
at least `CHECKS_INTERVAL` always elapses before the next pass. -/
theorem cycle_pacing (fetch1 : String → Snapshot) (ch : String)
    (feeds : List String) (m m2 : WatchMap) (tr : List Ev)
    (h : runCycle fetch1 ch feeds m = some (m2, tr)) :
    sumSleeps tr =
      (feeds.countP (fun f => !(fetch1 f).entries.isEmpty)) *
        REQUESTS_INTERVAL + CHECKS_INTERVAL ∧
    CHECKS_INTERVAL ≤ sumSleeps tr := by
  have hs := runCycle_sleeps fetch1 ch feeds m m2 tr h
  exact ⟨hs, by omega⟩

/-- Witness for C7 (amended): the concrete pass over feeds a and b, where
only b's snapshot has entries, sleeps 1 × `REQUESTS_INTERVAL` +
`CHECKS_INTERVAL` seconds. -/
theorem cycle_pacing_witness :
    sumSleeps [Ev.fetchEv "a", Ev.fetchEv "b", Ev.sleepEv REQUESTS_INTERVAL,
        Ev.sleepEv CHECKS_INTERVAL] =
      ((["a", "b"] : List String).countP
        (fun f => !(cfetchAB f).entries.isEmpty)) * REQUESTS_INTERVAL +
        CHECKS_INTERVAL ∧
    CHECKS_INTERVAL ≤ sumSleeps [Ev.fetchEv "a", Ev.fetchEv "b",
      Ev.sleepEv REQUESTS_INTERVAL, Ev.sleepEv CHECKS_INTERVAL] :=
  cycle_pacing cfetchAB "#chan" ["a", "b"] mapAB mapAB
    [Ev.fetchEv "a", Ev.fetchEv "b", Ev.sleepEv REQUESTS_INTERVAL,
      Ev.sleepEv CHECKS_INTERVAL] rfl

/-- C8. Over any number of steady-state passes, each feed's saved date is
monotonically non-decreasing: a key present in the dictionary stays
present, and its value only ever grows (each pass leaves it unchanged or
replaces it by a strictly greater one, per `runCycle_mono`). -/
theorem lastSeen_monotone (fetchSeq : Nat → String → Snapshot) (ch : String)
    (feeds : List String) :
    ∀ (n i : Nat) (m m2 : WatchMap),
      runLoop fetchSeq ch feeds i n m = some m2 →
      ∀ k v, m k = some v → ∃ v2, m2 k = some v2 ∧ v ≤ v2 := by
  intro n
  induction n with
  | zero =>
    intro i m m2 h k v hv
    simp only [runLoop, Option.some.injEq] at h
    subst h
    exact ⟨v, hv, Nat.le_refl v⟩
  | succ n ih =>
    intro i m m2 h k v hv
    simp only [runLoop] at h
    split at h
    · exact Option.noConfusion h
    · rename_i p hc
      obtain ⟨m1, tr1⟩ := p
      obtain ⟨v1, hv1, hle1⟩ :=
        (runCycle_mono (fetchSeq i) ch feeds m m1 tr1 hc k).2 v hv
      obtain ⟨v2, hv2, hle2⟩ := ih (i + 1) m1 m2 h k v1 hv1
      exact ⟨v2, hv2, Nat.le_trans hle1 hle2⟩

/-- Witness for C8: one pass over feeds a and b raises feed b's saved date
from 1 to a value at least 1 (here 3). -/
theorem lastSeen_monotone_witness :
    ∃ v2, (updateMap mapAB1 "b" 3) "b" = some v2 ∧ 1 ≤ v2 :=
  lastSeen_monotone (fun _ => cfetchAB) "#chan" ["a", "b"] 1 0 mapAB1
    (updateMap mapAB1 "b" 3) rfl "b" 1 rfl

/-- C9. After seeding the dictionary's key set is exactly the surviving
feed list; a steady-state pass over those feeds neither adds nor removes
keys; and starting from the seeded dictionary, any number of passes (under
any fetch environments) completes without a failed lookup. -/
theorem watch_domain_stable (fetch1 : String → Snapshot)
    (fetchSeq : Nat → String → Snapshot) (ch : String) (st : Nat)
    (fs : List String) (n i : Nat) :
    (∀ k, ((seed fetch1 st fs).dates k).isSome ↔
      k ∈ (seed fetch1 st fs).feeds) ∧
    (∀ (g : String → Snapshot) (m m2 : WatchMap) (tr : List Ev),
      runCycle g ch (seed fetch1 st fs).feeds m = some (m2, tr) →
      ∀ k, (m2 k).isSome = (m k).isSome) ∧
    (runLoop fetchSeq ch (seed fetch1 st fs).feeds i n
      (seed fetch1 st fs).dates).isSome := by
  refine ⟨?_, ?_, ?_⟩
  · intro k
    constructor
    · intro hk
      rw [seed_feeds_mem]
      by_cases hin : k ∈ fs
      · by_cases hst : (fetch1 k).status = 200
        · exact ⟨hin, hst⟩
        · rw [seed_dates_dropped fetch1 st fs k hst] at hk
          simp at hk
      · rw [seed_dates_not_mem fetch1 st fs k hin] at hk
        simp at hk
    · intro hk
      obtain ⟨hin, hst⟩ := (seed_feeds_mem fetch1 st fs k).mp hk
      rw [seed_dates_kept fetch1 st fs k hin hst]
      rfl
  · intro g m m2 tr h k
    exact runCycle_domain g ch (seed fetch1 st fs).feeds m m2 tr h k
  · apply runLoop_isSome
    intro f hf
    obtain ⟨hin, hst⟩ := (seed_feeds_mem fetch1 st fs f).mp hf
    rw [seed_dates_kept fetch1 st fs f hin hst]
    rfl

/-- Witness for C9: the concrete pass that updates feed b's saved date
keeps feed b's key present. -/
theorem watch_domain_stable_witness :
    ((updateMap mapAB1 "b" 3) "b").isSome = (mapAB1 "b").isSome :=
  (watch_domain_stable cfetchAB (fun _ => cfetchAB) "#chan" 7
      ["a", "b"] 1 0).2.1
    cfetchAB mapAB1 (updateMap mapAB1 "b" 3)
    [Ev.fetchEv "a", Ev.fetchEv "b",
      Ev.notifyEv (mk_payload ⟨"t", "l", "s", 3⟩ "#chan"),
      Ev.sleepEv REQUESTS_INTERVAL, Ev.sleepEv CHECKS_INTERVAL] rfl "b"

end AwsStatusSlack
